import Mathlib

/-!
Shallow embedding of the two x-heep firmware applications
(`sw/applications/bsp_flash_profiling/main.c` and
`sw/applications/example_spi_host_quadIO/main.c`) and proofs about them.

Machine integers are modelled as `Nat` with explicit `% 2^w` where the C code
can overflow or truncate; byte buffers are modelled as functions `Nat → Nat`
from byte index to byte value; fallible driver calls are modelled by an
environment of status oracles, and the profiling `main` is an explicit
state-passing function producing an exit code and an event trace.
-/

/-- Error codes of the `w25q128jw` flash driver (`error_codes_t`).  The
application code only distinguishes `FLASH_OK`; any other value is fatal. -/
inductive ErrorCodes where
  | FLASH_OK
  | FLASH_ERROR
deriving DecidableEq

/-- The C standard library constant `EXIT_SUCCESS`. -/
def EXIT_SUCCESS : Nat := 0

/-- The C standard library constant `EXIT_FAILURE`. -/
def EXIT_FAILURE : Nat := 1

/-- The 32-bit word formed by four consecutive little-endian bytes of a byte
buffer, as obtained by reading the buffer through a `uint32_t` pointer
(`flash_data_check[j]`, `test_buffer_check[j]` in the profiling `main`). -/
def wordAt (b : Nat → Nat) (j : Nat) : Nat :=
  b (4 * j) + 2 ^ 8 * b (4 * j + 1) + 2 ^ 16 * b (4 * j + 2) + 2 ^ 24 * b (4 * j + 3)

/-- The value `memcpy(&last_bytes, &test_buffer_check[j], r)` leaves in a zero-initialised
`uint32_t`: the `r` bytes starting at byte offset `4*j` of the buffer are
placed little-endian into the low bytes of a word whose other bytes are 0. -/
def lastBytes (b : Nat → Nat) (j r : Nat) : Nat :=
  ((List.range r).map (fun k => 2 ^ (8 * k) * b (4 * j + k))).sum

/-- Number of iterations of the verification loop for an `i`-byte transfer:
`(i%4==0 ? i/4 : i/4+1)` from the profiling `main`. -/
def numWords (i : Nat) : Nat :=
  if i % 4 = 0 then i / 4 else i / 4 + 1

/-- The reference value the verification loop compares `flash_data_check[j]`
against: the full expected word for `j < i/4`, and for the final partial index
the zero-padded `last_bytes` word. -/
def refWord (expected : Nat → Nat) (i j : Nat) : Nat :=
  if j < i / 4 then wordAt expected j else lastBytes expected j (i % 4)

/-- The per-iteration mismatch count `errors` computed by the verification
loop of the profiling `main` for an `i`-byte transfer. -/
def iterErrors (expected actual : Nat → Nat) (i : Nat) : Nat :=
  (List.range (numWords i)).countP (fun j => decide (wordAt actual j ≠ refWord expected i j))

/-- A bounded universal over `k < 4` is the conjunction of its four
instances. -/
theorem forall_lt_four (p : Nat → Prop) :
    (∀ k, k < 4 → p k) ↔ p 0 ∧ p 1 ∧ p 2 ∧ p 3 := by
  constructor
  · intro h
    exact ⟨h 0 (by omega), h 1 (by omega), h 2 (by omega), h 3 (by omega)⟩
  · rintro ⟨h0, h1, h2, h3⟩ k hk
    interval_cases k <;> assumption

/-- C3: for every length `L` in `[1, 1024]`, the verification loop iterates
over exactly `ceil(L/4)` word indices; for every index `j < L/4` the reference
is the full 32-bit expected word, and when `L mod 4 ≠ 0` the final index is
compared against a word built by copying the `L mod 4` valid trailing expected
bytes into a zero-initialised 32-bit word; the mismatch count equals the
number of indices whose comparison differs. -/
theorem c3_verification_loop_structure (expected actual : Nat → Nat) (L : Nat)
    (h1 : 1 ≤ L) (h2 : L ≤ 1024) :
    numWords L = (L + 3) / 4 ∧
    (∀ j, j < L / 4 → refWord expected L j = wordAt expected j) ∧
    (L % 4 ≠ 0 → refWord expected L (L / 4) = lastBytes expected (L / 4) (L % 4)) ∧
    iterErrors expected actual L =
      ((List.range ((L + 3) / 4)).filter
        (fun j => decide (wordAt actual j ≠ refWord expected L j))).length := by
  have hnw : numWords L = (L + 3) / 4 := by
    unfold numWords; split <;> omega
  refine ⟨hnw, ?_, ?_, ?_⟩
  · intro j hj
    simp [refWord, hj]
  · intro _
    simp [refWord]
  · rw [iterErrors, hnw, List.countP_eq_length_filter]

/-- Witness for `c3_verification_loop_structure` at `L = 5` and concrete
buffers. -/
theorem c3_verification_loop_structure_witness :
    numWords 5 = (5 + 3) / 4 ∧
    (∀ j, j < 5 / 4 → refWord (fun _ => 7) 5 j = wordAt (fun _ => 7) j) ∧
    (5 % 4 ≠ 0 → refWord (fun _ => 7) 5 (5 / 4) = lastBytes (fun _ => 7) (5 / 4) (5 % 4)) ∧
    iterErrors (fun _ => 7) (fun _ => 0) 5 =
      ((List.range ((5 + 3) / 4)).filter
        (fun j => decide (wordAt (fun _ => 0) j ≠ refWord (fun _ => 7) 5 j))).length :=
  c3_verification_loop_structure (fun _ => 7) (fun _ => 0) 5 (by decide) (by decide)

/-- Expected buffer used in the counterexample to C2 as stated. -/
def expC2 : Nat → Nat := fun _ => 0xAA

/-- Actual buffer with the single valid byte correct and all trailing bytes of
the final word equal to 0. -/
def actC2a : Nat → Nat := fun k => if k = 0 then 0xAA else 0

/-- Actual buffer identical to `actC2a` on every byte except the trailing
byte at index 1, which lies beyond the requested length `L = 1`. -/
def actC2b : Nat → Nat := fun k => if k = 0 then 0xAA else if k = 1 then 1 else 0

/-- C2 as stated is false: for `L = 1` the two actual buffers agree on every
byte below the requested length (and indeed everywhere except byte 1, a
trailing byte of the final word), yet the mismatch counts differ, because the
verification loop compares the whole 32-bit actual word against the
zero-padded expected bytes. -/
theorem c2_counterexample :
    actC2a 0 = actC2b 0 ∧ actC2a 2 = actC2b 2 ∧ actC2a 3 = actC2b 3 ∧
    (∀ k, k < 8 → k ≠ 1 → actC2a k = actC2b k) ∧
    actC2a 1 ≠ actC2b 1 ∧
    iterErrors expC2 actC2a 1 = 0 ∧
    iterErrors expC2 actC2b 1 = 1 := by
  decide

/-- C2 amended: for `L` not a multiple of 4 (and byte-valued buffers), the
final-word comparison of the verification loop succeeds iff the `L mod 4`
valid actual bytes equal the expected bytes AND the remaining
`4 - (L mod 4)` trailing actual bytes are zero — the trailing actual bytes
are compared (against zero), not ignored. -/
theorem c2_amended_tail_bytes_compared_to_zero (expected actual : Nat → Nat) (L : Nat)
    (hL : L % 4 ≠ 0)
    (ha : ∀ k, actual k < 256) (he : ∀ k, expected k < 256) :
    wordAt actual (L / 4) = refWord expected L (L / 4) ↔
      ∀ k, k < 4 →
        actual (4 * (L / 4) + k) = if k < L % 4 then expected (4 * (L / 4) + k) else 0 := by
  have hrw : refWord expected L (L / 4) = lastBytes expected (L / 4) (L % 4) := by
    simp [refWord]
  rw [hrw, forall_lt_four]
  have hr4 : L % 4 < 4 := Nat.mod_lt _ (by omega)
  have ha0 := ha (4 * (L / 4)); have ha1 := ha (4 * (L / 4) + 1)
  have ha2 := ha (4 * (L / 4) + 2); have ha3 := ha (4 * (L / 4) + 3)
  have he0 := he (4 * (L / 4)); have he1 := he (4 * (L / 4) + 1)
  have he2 := he (4 * (L / 4) + 2); have he3 := he (4 * (L / 4) + 3)
  rcases (show L % 4 = 1 ∨ L % 4 = 2 ∨ L % 4 = 3 by omega) with h | h | h <;>
    rw [h] <;>
    simp only [wordAt, lastBytes, List.range_succ, List.range_zero, List.map_append,
      List.map_cons, List.map_nil, List.sum_append, List.sum_cons, List.sum_nil,
      List.nil_append] <;>
    norm_num <;>
    omega

/-- Witness for `c2_amended_tail_bytes_compared_to_zero` at `L = 1`, with the
actual buffer zero beyond its first byte. -/
theorem c2_amended_tail_bytes_compared_to_zero_witness :
    wordAt actC2a (1 / 4) = refWord expC2 1 (1 / 4) :=
  (c2_amended_tail_bytes_compared_to_zero expC2 actC2a 1 (by decide)
      (fun k => by unfold actC2a; split <;> omega)
      (fun k => by unfold expC2; omega)).mpr (by decide)

/-- Flash address used by the profiling application. -/
def FLASH_ADDR : Nat := 0x00008500

/-- Maximum test buffer length in bytes of the profiling application. -/
def MAX_TEST_BUF_LEN : Nat := 1024

/-- Events produced while the profiling `main` runs, in program order: the
two zero-writes of `reset_timer`, timer enable/disable, the flash driver
write/read calls with their returned status, the timer read-back, and the
per-iteration verification with its error count. -/
inductive Ev where
  | timerResetLower
  | timerResetUpper
  | timerEnable
  | timerDisable
  | timerRead
  | writeOp (quad : Bool) (len : Nat) (status : ErrorCodes)
  | readOp (quad : Bool) (len : Nat) (status : ErrorCodes)
  | verifyOp (quad : Bool) (len : Nat) (errs : Nat)
deriving DecidableEq

/-- The environment of the profiling `main`: the flash driver's behaviour.
`writeStatus quad i` / `readStatus quad i` are the statuses returned by the
(standard or quad) write/read of length `i`; `readByte quad i k` is the byte
deposited at index `k` of `flash_data` by a successful read of length `i`. -/
structure FlashEnv where
  initStatus : ErrorCodes
  writeStatus : Bool → Nat → ErrorCodes
  readStatus : Bool → Nat → ErrorCodes
  readByte : Bool → Nat → Nat → Nat

/-- The mutable state of the profiling `main`: the `flash_data` buffer, the
`flag` variable, the OUTER `errors` variable declared at function scope
(which is shadowed by the loop-local `errors` inside both loops and hence
never written after its initialisation), and the event trace. -/
structure ProfState where
  flashData : Nat → Nat
  flag : Bool
  outerErrors : Nat
  trace : List Ev

/-- One iteration of a profiling loop (`quad` selects the quad-speed loop),
for buffer length `i`: reset and start the timer, write to flash, stop the
timer, abort with `EXIT_FAILURE` on a bad status; read back the timer; the
same for the flash read; then run the verification loop, which sets the
loop-local `errors`, and set `flag` when it found mismatches. -/
def doIter (expected : Nat → Nat) (env : FlashEnv) (quad : Bool) (st : ProfState) (i : Nat) :
    Except (Nat × ProfState) ProfState :=
  let sw := env.writeStatus quad i
  let st1 : ProfState := { st with trace := st.trace ++
      [.timerResetLower, .timerResetUpper, .timerEnable, .writeOp quad i sw, .timerDisable] }
  if sw ≠ .FLASH_OK then .error (EXIT_FAILURE, st1) else
  let st2 : ProfState := { st1 with trace := st1.trace ++ [.timerRead] }
  let sr := env.readStatus quad i
  let st3 : ProfState := { st2 with trace := st2.trace ++
      [.timerResetLower, .timerResetUpper, .timerEnable, .readOp quad i sr, .timerDisable] }
  if sr ≠ .FLASH_OK then .error (EXIT_FAILURE, st3) else
  let fd : Nat → Nat := fun k => if k < i then env.readByte quad i k else st.flashData k
  let st4 : ProfState := { st3 with flashData := fd, trace := st3.trace ++ [.timerRead] }
  let errs := iterErrors expected fd i
  .ok { st4 with flag := if errs > 0 then true else st4.flag,
                 trace := st4.trace ++ [.verifyOp quad i errs] }

/-- A profiling loop over the listed buffer lengths; a driver error aborts
the whole run (the C `return EXIT_FAILURE`). -/
def runIters (expected : Nat → Nat) (env : FlashEnv) (quad : Bool) :
    List Nat → ProfState → Except (Nat × ProfState) ProfState
  | [], st => .ok st
  | i :: rest, st =>
    match doIter expected env quad st i with
    | .error e => .error e
    | .ok st' => runIters expected env quad rest st'

/-- The state at the start of `main`: `flash_data` is a zero-initialised
global, `flag = 0`, the outer `errors = 0`, empty trace. -/
def initProfState : ProfState :=
  { flashData := fun _ => 0, flag := false, outerErrors := 0, trace := [] }

/-- The profiling `main`: init the driver, run the standard-speed loop for
lengths 1..1024, then the quad-speed loop, and finally exit with
`EXIT_SUCCESS` iff the OUTER `errors` variable is zero (the exit test at the
end of `main` reads the outer `errors`, not `flag` nor the loop-local
`errors`). Returns the exit code and the final state. -/
def profMain (expected : Nat → Nat) (env : FlashEnv) : Nat × ProfState :=
  if env.initStatus ≠ .FLASH_OK then (EXIT_FAILURE, initProfState) else
  match runIters expected env false (List.range' 1 MAX_TEST_BUF_LEN) initProfState with
  | .error (c, st) => (c, st)
  | .ok st =>
    match runIters expected env true (List.range' 1 MAX_TEST_BUF_LEN) st with
    | .error (c, st) => (c, st)
    | .ok st => if st.outerErrors = 0 then (EXIT_SUCCESS, st) else (EXIT_FAILURE, st)

/-- The rv_timer counter registers for one hart as seen by the profiling
application: the lower and upper 32-bit halves of the free-running counter
and the enable bit. -/
structure TimerState where
  lowerV : Nat
  upperV : Nat
  enabled : Bool

/-- The function `reset_timer` of the profiling application: write `0x0` to the hart's
`TIMER_V_LOWER0` register and then `0x0` to its `TIMER_V_UPPER0` register. -/
def reset_timer (ts : TimerState) : TimerState :=
  { ts with lowerV := 0, upperV := 0 }

/-- Modelled from the spec: `rv_timer_counter_read` (BSP timer code, not under
`src/`) reads the elapsed tick count as a 64-bit value combining the lower
and upper 32-bit counter halves. -/
def rv_timer_counter_read (ts : TimerState) : Nat :=
  ts.lowerV % 2 ^ 32 + 2 ^ 32 * (ts.upperV % 2 ^ 32)

/-- The contents of `flash_data` after a successful read of length `i`:
bytes below `i` come from the flash driver, the rest keep their previous
value. -/
def afterReadData (env : FlashEnv) (quad : Bool) (st : ProfState) (i : Nat) : Nat → Nat :=
  fun k => if k < i then env.readByte quad i k else st.flashData k

/-- The events one successful profiling iteration appends to the trace. -/
def okTrace (expected : Nat → Nat) (env : FlashEnv) (quad : Bool) (st : ProfState) (i : Nat) :
    List Ev :=
  [.timerResetLower, .timerResetUpper, .timerEnable,
   .writeOp quad i (env.writeStatus quad i), .timerDisable, .timerRead,
   .timerResetLower, .timerResetUpper, .timerEnable,
   .readOp quad i (env.readStatus quad i), .timerDisable, .timerRead,
   .verifyOp quad i (iterErrors expected (afterReadData env quad st i) i)]

/-- When both driver calls succeed, one profiling iteration produces exactly
the reset/enable/operation/disable/read-ticks sequence for the write and then
for the read, followed by the verification, and updates `flash_data` and
`flag` accordingly; the outer `errors` is untouched. -/
theorem doIter_ok (expected : Nat → Nat) (env : FlashEnv) (quad : Bool) (st : ProfState) (i : Nat)
    (hw : env.writeStatus quad i = .FLASH_OK) (hr : env.readStatus quad i = .FLASH_OK) :
    doIter expected env quad st i = .ok
      { flashData := afterReadData env quad st i,
        flag := if iterErrors expected (afterReadData env quad st i) i > 0 then true else st.flag,
        outerErrors := st.outerErrors,
        trace := st.trace ++ okTrace expected env quad st i } := by
  simp [doIter, hw, hr, okTrace]
  exact ⟨rfl, rfl, rfl⟩

/-- A profiling loop whose driver calls all succeed never aborts: it returns
a final state with the same outer `errors`, a monotonically preserved `flag`,
a trace extending the starting trace, and one verification event for every
listed length. -/
theorem runIters_all_ok (expected : Nat → Nat) (env : FlashEnv) (quad : Bool)
    (hw : ∀ q i, env.writeStatus q i = .FLASH_OK)
    (hr : ∀ q i, env.readStatus q i = .FLASH_OK) :
    ∀ (is : List Nat) (st : ProfState), ∃ st' : ProfState,
      runIters expected env quad is st = .ok st' ∧
      st'.outerErrors = st.outerErrors ∧
      (st.flag = true → st'.flag = true) ∧
      (∃ t, st'.trace = st.trace ++ t) ∧
      (∀ i ∈ is, ∃ e, Ev.verifyOp quad i e ∈ st'.trace) := by
  intro is
  induction is with
  | nil =>
    intro st
    exact ⟨st, rfl, rfl, fun h => h, ⟨[], by simp⟩, by simp⟩
  | cons i rest ih =>
    intro st
    have hd := doIter_ok expected env quad st i (hw quad i) (hr quad i)
    obtain ⟨st', h1, h2, h3, ⟨t, h4⟩, h5⟩ := ih
      { flashData := afterReadData env quad st i,
        flag := if iterErrors expected (afterReadData env quad st i) i > 0 then true else st.flag,
        outerErrors := st.outerErrors,
        trace := st.trace ++ okTrace expected env quad st i }
    refine ⟨st', ?_, ?_, ?_, ?_, ?_⟩
    · simp only [runIters, hd, h1]
    · simpa using h2
    · intro hf
      apply h3
      simp [hf]
    · exact ⟨okTrace expected env quad st i ++ t, by simp [h4]⟩
    · intro j hj
      rcases List.mem_cons.mp hj with hj | hj
      · subst hj
        refine ⟨iterErrors expected (afterReadData env quad st j) j, ?_⟩
        rw [h4]
        apply List.mem_append_left
        simp [okTrace]
      · exact h5 j hj

/-- If all driver calls succeed, the profiling `main` runs both full loops
and exits with `EXIT_SUCCESS` (the outer `errors` is never written), with a
verification event for every length of both loops in the final trace. -/
theorem profMain_all_ok (expected : Nat → Nat) (env : FlashEnv)
    (h0 : env.initStatus = .FLASH_OK)
    (hw : ∀ q i, env.writeStatus q i = .FLASH_OK)
    (hr : ∀ q i, env.readStatus q i = .FLASH_OK) :
    ∃ st : ProfState, profMain expected env = (EXIT_SUCCESS, st) ∧
      (st.flag = true → True) ∧
      (∀ quad : Bool, ∀ i ∈ List.range' 1 MAX_TEST_BUF_LEN,
        ∃ e, Ev.verifyOp quad i e ∈ st.trace) := by
  obtain ⟨stA, hA, hAerr, _, _, hAver⟩ :=
    runIters_all_ok expected env false hw hr (List.range' 1 MAX_TEST_BUF_LEN) initProfState
  obtain ⟨stB, hB, hBerr, _, ⟨tB, hBtr⟩, hBver⟩ :=
    runIters_all_ok expected env true hw hr (List.range' 1 MAX_TEST_BUF_LEN) stA
  have hout : stB.outerErrors = 0 := by
    rw [hBerr, hAerr]; rfl
  refine ⟨stB, ?_, fun _ => trivial, ?_⟩
  · simp [profMain, h0, hA, hB, hout, EXIT_SUCCESS]
  · intro quad i hi
    cases quad with
    | false =>
      obtain ⟨e, he⟩ := hAver i hi
      exact ⟨e, by rw [hBtr]; exact List.mem_append_left _ he⟩
    | true => exact hBver i hi

/-- Unfolding of one step of a profiling loop. -/
theorem runIters_cons (expected : Nat → Nat) (env : FlashEnv) (quad : Bool) (i : Nat)
    (rest : List Nat) (st : ProfState) :
    runIters expected env quad (i :: rest) st =
      match doIter expected env quad st i with
      | .error e => .error e
      | .ok st' => runIters expected env quad rest st' := rfl

/-- A flash-driver environment where every call succeeds and every read
delivers zero bytes. -/
def envZero : FlashEnv :=
  { initStatus := .FLASH_OK,
    writeStatus := fun _ _ => .FLASH_OK,
    readStatus := fun _ _ => .FLASH_OK,
    readByte := fun _ _ _ => 0 }

/-- A reference buffer whose every byte is 1, so reads that deliver zeros
mismatch. -/
def expOne : Nat → Nat := fun _ => 1

/-- The state after the first standard-speed iteration of
`profMain expOne envZero`. -/
def st1C1 : ProfState :=
  { flashData := afterReadData envZero false initProfState 1,
    flag := if iterErrors expOne (afterReadData envZero false initProfState 1) 1 > 0 then true
            else initProfState.flag,
    outerErrors := initProfState.outerErrors,
    trace := initProfState.trace ++ okTrace expOne envZero false initProfState 1 }

/-- C1 fails on the code: with every driver call returning Ok and every read
delivering data that mismatches the reference (so `flag` is set), the
profiling `main` still exits with `EXIT_SUCCESS`, because the exit test reads
the outer `errors` variable, which is shadowed by the loop-local `errors` and
never written; in fact under all-Ok drivers the exit code is `EXIT_SUCCESS`
whatever the data. -/
theorem c1_success_exit_despite_mismatches :
    (profMain expOne envZero).1 = EXIT_SUCCESS ∧
    (profMain expOne envZero).2.flag = true ∧
    (∀ expected env, env.initStatus = .FLASH_OK →
      (∀ q i, env.writeStatus q i = .FLASH_OK) →
      (∀ q i, env.readStatus q i = .FLASH_OK) →
      (profMain expected env).1 = EXIT_SUCCESS) := by
  have hgen : ∀ expected env, env.initStatus = .FLASH_OK →
      (∀ q i, env.writeStatus q i = .FLASH_OK) →
      (∀ q i, env.readStatus q i = .FLASH_OK) →
      (profMain expected env).1 = EXIT_SUCCESS := by
    intro expected env h0 hw hr
    obtain ⟨st, hst, -, -⟩ := profMain_all_ok expected env h0 hw hr
    rw [hst]
  have hd : doIter expOne envZero false initProfState 1 = .ok st1C1 :=
    doIter_ok expOne envZero false initProfState 1 rfl rfl
  have hflag1 : st1C1.flag = true := by decide
  obtain ⟨stA, hA, hAerr, hAflag, -, -⟩ :=
    runIters_all_ok expOne envZero false (fun _ _ => rfl) (fun _ _ => rfl)
      (List.range' 2 1023) st1C1
  obtain ⟨stB, hB, hBerr, hBflag, -, -⟩ :=
    runIters_all_ok expOne envZero true (fun _ _ => rfl) (fun _ _ => rfl)
      (List.range' 1 MAX_TEST_BUF_LEN) stA
  have hrunA : runIters expOne envZero false (List.range' 1 MAX_TEST_BUF_LEN) initProfState
      = .ok stA := by
    rw [show List.range' 1 MAX_TEST_BUF_LEN = 1 :: List.range' 2 1023 from rfl,
      runIters_cons, hd]
    exact hA
  have hout : stB.outerErrors = 0 := by
    rw [hBerr, hAerr]; rfl
  have hmain : profMain expOne envZero = (EXIT_SUCCESS, stB) := by
    have h0 : (envZero.initStatus ≠ ErrorCodes.FLASH_OK) = False := by
      simp [envZero]
    simp only [profMain, h0, if_false, hrunA, hB]
    simp [hout]
  rw [hmain]
  exact ⟨rfl, hBflag (hAflag hflag1), hgen⟩

/-- Witness for `c1_success_exit_despite_mismatches`: its general part at the
all-Ok environment. -/
theorem c1_success_exit_despite_mismatches_witness :
    (profMain expOne envZero).1 = EXIT_SUCCESS :=
  c1_success_exit_despite_mismatches.2.2 expOne envZero rfl (fun _ _ => rfl) (fun _ _ => rfl)

/-- When the flash write of a profiling iteration fails, the iteration stops
right after stopping the timer: the timer is not read back, the flash read
and the verification do not happen. -/
theorem doIter_write_fail (expected : Nat → Nat) (env : FlashEnv) (quad : Bool)
    (st : ProfState) (i : Nat) (hw : env.writeStatus quad i ≠ .FLASH_OK) :
    doIter expected env quad st i = .error (EXIT_FAILURE,
      { st with trace := st.trace ++
          [.timerResetLower, .timerResetUpper, .timerEnable,
           .writeOp quad i (env.writeStatus quad i), .timerDisable] }) := by
  simp [doIter, hw]

/-- When the flash write succeeds but the read fails, the iteration stops
right after stopping the read timer: no second timer read-back and no
verification. -/
theorem doIter_read_fail (expected : Nat → Nat) (env : FlashEnv) (quad : Bool)
    (st : ProfState) (i : Nat) (hw : env.writeStatus quad i = .FLASH_OK)
    (hr : env.readStatus quad i ≠ .FLASH_OK) :
    doIter expected env quad st i = .error (EXIT_FAILURE,
      { st with trace := st.trace ++
          [.timerResetLower, .timerResetUpper, .timerEnable,
           .writeOp quad i (env.writeStatus quad i), .timerDisable, .timerRead,
           .timerResetLower, .timerResetUpper, .timerEnable,
           .readOp quad i (env.readStatus quad i), .timerDisable] }) := by
  simp [doIter, hw, hr]

/-- C5: a non-Ok driver status aborts the run immediately with
`EXIT_FAILURE`: the trace ends at the failed operation (no retry, no
verification of that iteration) and the remaining iterations of the loop
contribute nothing; an aborted loop is the final result of `main` (the other
loop does not run). -/
theorem c5_driver_error_aborts_run :
    (∀ expected env quad i rest st, env.writeStatus quad i ≠ .FLASH_OK →
       runIters expected env quad (i :: rest) st = .error (EXIT_FAILURE,
         { st with trace := st.trace ++
             [.timerResetLower, .timerResetUpper, .timerEnable,
              .writeOp quad i (env.writeStatus quad i), .timerDisable] })) ∧
    (∀ expected env quad i rest st, env.writeStatus quad i = .FLASH_OK →
       env.readStatus quad i ≠ .FLASH_OK →
       runIters expected env quad (i :: rest) st = .error (EXIT_FAILURE,
         { st with trace := st.trace ++
             [.timerResetLower, .timerResetUpper, .timerEnable,
              .writeOp quad i (env.writeStatus quad i), .timerDisable, .timerRead,
              .timerResetLower, .timerResetUpper, .timerEnable,
              .readOp quad i (env.readStatus quad i), .timerDisable] })) ∧
    (∀ expected env c st', env.initStatus = .FLASH_OK →
       runIters expected env false (List.range' 1 MAX_TEST_BUF_LEN) initProfState
         = .error (c, st') →
       profMain expected env = (c, st')) ∧
    (∀ expected env stA c st', env.initStatus = .FLASH_OK →
       runIters expected env false (List.range' 1 MAX_TEST_BUF_LEN) initProfState = .ok stA →
       runIters expected env true (List.range' 1 MAX_TEST_BUF_LEN) stA = .error (c, st') →
       profMain expected env = (c, st')) := by
  refine ⟨?_, ?_, ?_, ?_⟩
  · intro expected env quad i rest st hw
    simp only [runIters, doIter_write_fail expected env quad st i hw]
  · intro expected env quad i rest st hw hr
    simp only [runIters, doIter_read_fail expected env quad st i hw hr]
  · intro expected env c st' h0 h
    simp [profMain, h0, h]
  · intro expected env stA c st' h0 hA h
    simp [profMain, h0, hA, h]

/-- A flash-driver environment whose writes always fail. -/
def envWriteFail : FlashEnv :=
  { initStatus := .FLASH_OK,
    writeStatus := fun _ _ => .FLASH_ERROR,
    readStatus := fun _ _ => .FLASH_OK,
    readByte := fun _ _ _ => 0 }

/-- Witness for `c5_driver_error_aborts_run`: a failing first write aborts a
loop immediately. -/
theorem c5_driver_error_aborts_run_witness :
    runIters expOne envWriteFail false (1 :: []) initProfState = .error (EXIT_FAILURE,
      { initProfState with trace := initProfState.trace ++
          [.timerResetLower, .timerResetUpper, .timerEnable,
           .writeOp false 1 (envWriteFail.writeStatus false 1), .timerDisable] }) :=
  c5_driver_error_aborts_run.1 expOne envWriteFail false 1 [] initProfState (by decide)

/-- C6: a verification mismatch never aborts the profiling run: whenever all
driver calls return Ok — whatever data the reads deliver, i.e. with any
number of mismatches — `main` reaches its final exit and the trace holds a
verification event for every length 1..1024 of both the standard-speed and
the quad-speed loop. -/
theorem c6_verification_mismatch_never_aborts (expected : Nat → Nat) (env : FlashEnv)
    (h0 : env.initStatus = .FLASH_OK)
    (hw : ∀ q i, env.writeStatus q i = .FLASH_OK)
    (hr : ∀ q i, env.readStatus q i = .FLASH_OK) :
    (profMain expected env).1 = EXIT_SUCCESS ∧
    ∀ (quad : Bool) (i : Nat), 1 ≤ i → i ≤ MAX_TEST_BUF_LEN →
      ∃ e, Ev.verifyOp quad i e ∈ (profMain expected env).2.trace := by
  obtain ⟨st, hst, -, hver⟩ := profMain_all_ok expected env h0 hw hr
  rw [hst]
  refine ⟨rfl, ?_⟩
  intro quad i hi1 hi2
  have hi2' : i ≤ 1024 := hi2
  refine hver quad i ?_
  rw [List.mem_range']
  exact ⟨i - 1, by omega, by omega⟩

/-- Witness for `c6_verification_mismatch_never_aborts` at the all-Ok,
mismatching environment and length 3 of the quad loop. -/
theorem c6_verification_mismatch_never_aborts_witness :
    ∃ e, Ev.verifyOp true 3 e ∈ (profMain expOne envZero).2.trace :=
  (c6_verification_mismatch_never_aborts expOne envZero rfl (fun _ _ => rfl)
    (fun _ _ => rfl)).2 true 3 (by decide) (by decide)

/-- C9: when both driver calls of an iteration succeed, the iteration is
exactly: zero the lower and upper raw tick-counter registers, enable
counting, flash write, disable counting, read the 64-bit tick value, then
the same five steps around the flash read, then verify; and resetting the
tick counter zeroes both halves, so reading it back with counting disabled
yields 0. -/
theorem c9_timed_transfer_step_sequence :
    (∀ (expected : Nat → Nat) (env : FlashEnv) (quad : Bool) (st : ProfState) (i : Nat),
      env.writeStatus quad i = .FLASH_OK → env.readStatus quad i = .FLASH_OK →
      doIter expected env quad st i = .ok
        { flashData := afterReadData env quad st i,
          flag := if iterErrors expected (afterReadData env quad st i) i > 0 then true
                  else st.flag,
          outerErrors := st.outerErrors,
          trace := st.trace ++
            [.timerResetLower, .timerResetUpper, .timerEnable,
             .writeOp quad i .FLASH_OK, .timerDisable, .timerRead,
             .timerResetLower, .timerResetUpper, .timerEnable,
             .readOp quad i .FLASH_OK, .timerDisable, .timerRead,
             .verifyOp quad i (iterErrors expected (afterReadData env quad st i) i)] }) ∧
    (∀ ts : TimerState, (reset_timer ts).lowerV = 0 ∧ (reset_timer ts).upperV = 0) ∧
    (∀ ts : TimerState, ts.enabled = false → rv_timer_counter_read (reset_timer ts) = 0) := by
  refine ⟨?_, fun ts => ⟨rfl, rfl⟩, fun ts _ => by simp [rv_timer_counter_read, reset_timer]⟩
  intro expected env quad st i hw hr
  rw [doIter_ok expected env quad st i hw hr]
  simp [okTrace, hw, hr]

/-- Witness for `c9_timed_transfer_step_sequence`: the step sequence of the
first standard-speed iteration under the all-Ok environment, and the
reset-then-read-disabled law at a concrete counter state. -/
theorem c9_timed_transfer_step_sequence_witness :
    doIter expOne envZero false initProfState 2 = .ok
      { flashData := afterReadData envZero false initProfState 2,
        flag := if iterErrors expOne (afterReadData envZero false initProfState 2) 2 > 0 then true
                else initProfState.flag,
        outerErrors := initProfState.outerErrors,
        trace := initProfState.trace ++
          [.timerResetLower, .timerResetUpper, .timerEnable,
           .writeOp false 2 .FLASH_OK, .timerDisable, .timerRead,
           .timerResetLower, .timerResetUpper, .timerEnable,
           .readOp false 2 .FLASH_OK, .timerDisable, .timerRead,
           .verifyOp false 2 (iterErrors expOne (afterReadData envZero false initProfState 2) 2)] }
    ∧ rv_timer_counter_read (reset_timer ⟨5, 7, false⟩) = 0 :=
  ⟨c9_timed_transfer_step_sequence.1 expOne envZero false initProfState 2 rfl rfl,
   c9_timed_transfer_step_sequence.2.2 ⟨5, 7, false⟩ rfl⟩

/-- SPI segment speed mode (`spi_speed_e`). -/
inductive SpiSpeed where
  | kSpiSpeedStandard
  | kSpiSpeedDual
  | kSpiSpeedQuad
deriving DecidableEq

/-- SPI segment direction (`spi_dir_e`). -/
inductive SpiDir where
  | kSpiDirDummy
  | kSpiDirRxOnly
  | kSpiDirTxOnly
  | kSpiDirBidir
deriving DecidableEq

/-- A SPI command segment descriptor (`spi_command_t`): bit length (encoded
as byte count minus one), chip-select-hold flag `csaat`, speed mode and
direction. -/
structure SpiCommand where
  len : Nat
  csaat : Bool
  speed : SpiSpeed
  direction : SpiDir
deriving DecidableEq

/-- Segment 1 of the Fast Read Quad I/O transaction: the 1-byte opcode,
standard speed, TX, command not finished. -/
def cmd_read : SpiCommand :=
  { len := 0, csaat := true, speed := .kSpiSpeedStandard, direction := .kSpiDirTxOnly }

/-- Segment 2: the 3 address bytes (+ mode byte), quad speed, TX, command
not finished. -/
def cmd_address : SpiCommand :=
  { len := 3, csaat := true, speed := .kSpiSpeedQuad, direction := .kSpiDirTxOnly }

/-- Segment 3: the dummy cycles, quad speed, command not finished. -/
def dummy_clocks_cmd : SpiCommand :=
  { len := 7, csaat := true, speed := .kSpiSpeedQuad, direction := .kSpiDirDummy }

/-- Segment 4: the 32-byte data read, quad speed, RX, end of command. -/
def cmd_read_rx : SpiCommand :=
  { len := 31, csaat := false, speed := .kSpiSpeedQuad, direction := .kSpiDirRxOnly }

/-- The four segments of the Fast Read Quad I/O transaction in the order the
quadIO example issues them: opcode, address, dummy cycles, data phase. -/
def quadIOTransaction : List SpiCommand :=
  [cmd_read, cmd_address, dummy_clocks_cmd, cmd_read_rx]

/-- C8: within the Fast Read Quad I/O transaction (opcode, address, dummy,
data segments issued in that order), every segment before the final
data-phase segment is issued with the chip-select-hold (`csaat`) flag set,
and the final data-phase (RX) segment is issued with the hold flag
cleared. -/
theorem c8_csaat_hold_flags :
    quadIOTransaction.map SpiCommand.csaat = [true, true, true, false] ∧
    quadIOTransaction.map SpiCommand.direction =
      [.kSpiDirTxOnly, .kSpiDirTxOnly, .kSpiDirDummy, .kSpiDirRxOnly] ∧
    quadIOTransaction.map SpiCommand.speed =
      [.kSpiSpeedStandard, .kSpiSpeedQuad, .kSpiSpeedQuad, .kSpiSpeedQuad] := by
  decide

/-- Maximum SPI clock frequency of the flash part (`FLASH_CLK_MAX_HZ`,
133 MHz). -/
def FLASH_CLK_MAX_HZ : Nat := 133 * 1000 * 1000

/-- The SPI clock-divider computation of the quadIO example `main`, in exact
C semantics: `core_clk` and the intermediate quotient are `uint32_t`
(subtraction wraps modulo `2^32`) and `clk_div` is a `uint16_t` (assignments
truncate modulo `2^16`); the truncated division is followed by at most one
conditional increment. -/
def clk_div (core_clk : Nat) : Nat :=
  if FLASH_CLK_MAX_HZ < core_clk / 2 then
    let d0 := (core_clk / FLASH_CLK_MAX_HZ + 2 ^ 32 - 2) % 2 ^ 32 / 2 % 2 ^ 16
    if FLASH_CLK_MAX_HZ < core_clk / (2 + 2 * d0) then (d0 + 1) % 2 ^ 16 else d0
  else 0

/-- C10: whenever `FLASH_CLK_MAX_HZ < core_clk / 2`, the computed divider
(truncated division then at most one increment) yields an SPI clock
`core_clk / (2 + 2*clk_div)` at or below the flash maximum, and the single
increment is always sufficient: the final divider never exceeds the
truncated quotient plus one. -/
theorem c10_clk_div_respects_flash_max (core_clk : Nat)
    (hc : core_clk < 2 ^ 32) (hf : FLASH_CLK_MAX_HZ < core_clk / 2) :
    core_clk / (2 + 2 * clk_div core_clk) ≤ FLASH_CLK_MAX_HZ ∧
    clk_div core_clk ≤ (core_clk / FLASH_CLK_MAX_HZ - 2) / 2 + 1 := by
  have hF : FLASH_CLK_MAX_HZ = 133000000 := by norm_num [FLASH_CLK_MAX_HZ]
  unfold clk_div
  rw [hF] at hf ⊢
  rw [if_pos hf]
  have hq2 : 2 ≤ core_clk / 133000000 := by omega
  have hq32 : core_clk / 133000000 ≤ 32 := by omega
  have hd0 : (core_clk / 133000000 + 2 ^ 32 - 2) % 2 ^ 32 / 2 % 2 ^ 16
      = (core_clk / 133000000 - 2) / 2 := by omega
  rw [hd0]
  by_cases hinc : 133000000 < core_clk / (2 + 2 * ((core_clk / 133000000 - 2) / 2))
  · rw [if_pos hinc]
    have hd15 : (core_clk / 133000000 - 2) / 2 ≤ 15 := by omega
    have hmod : ((core_clk / 133000000 - 2) / 2 + 1) % 2 ^ 16
        = (core_clk / 133000000 - 2) / 2 + 1 := by omega
    rw [hmod]
    refine ⟨?_, by omega⟩
    have h2d : 0 < 2 + 2 * ((core_clk / 133000000 - 2) / 2 + 1) := by omega
    have hlt : core_clk < 133000001 * (2 + 2 * ((core_clk / 133000000 - 2) / 2 + 1)) := by
      omega
    exact Nat.lt_succ_iff.mp ((Nat.div_lt_iff_lt_mul h2d).mpr hlt)
  · rw [if_neg hinc]
    exact ⟨Nat.not_lt.mp hinc, by omega⟩

/-- Witness for `c10_clk_div_respects_flash_max` at a 400 MHz core clock. -/
theorem c10_clk_div_respects_flash_max_witness :
    400000000 / (2 + 2 * clk_div 400000000) ≤ FLASH_CLK_MAX_HZ ∧
    clk_div 400000000 ≤ (400000000 / FLASH_CLK_MAX_HZ - 2) / 2 + 1 :=
  c10_clk_div_respects_flash_max 400000000 (by norm_num)
    (by norm_num [FLASH_CLK_MAX_HZ])

/-- Program points of the completion-signal wait loop of the quadIO example:
the `while` condition, the loop body before `CSR_CLEAR_BITS`, the inner flag
check after global interrupts are disabled, the point just before
`wait_for_interrupt`, the point before `CSR_SET_BITS`, and loop exit. -/
inductive WaitPC where
  | whileHead
  | bodyStart
  | atCheck
  | atWfi
  | atSet
  | loopDone
deriving DecidableEq

/-- State of the core and the SPI interrupt machinery around the wait loop:
program point, the `spi_intr_flag` latch, the global machine interrupt
enable (`mstatus.MIE`), the two SPI interrupt source enables (event and
RX watermark), and how many times the handler has signalled. -/
structure SpiWaitState where
  pc : WaitPC
  spi_intr_flag : Bool
  mie : Bool
  evtEn : Bool
  rxwmEn : Bool
  signals : Nat
deriving DecidableEq

/-- The fast interrupt handler `fic_irq_spi`: disable the SPI event
interrupt, disable the RX-watermark interrupt, then set `spi_intr_flag`. -/
def fic_irq_spi (s : SpiWaitState) : SpiWaitState :=
  { s with evtEn := false, rxwmEn := false, spi_intr_flag := true,
           signals := s.signals + 1 }

/-- Small-step relation of
`while (spi_intr_flag == 0) { CSR_CLEAR_BITS(mstatus, 0x8);
if (spi_intr_flag == 0) wait_for_interrupt(); CSR_SET_BITS(mstatus, 0x8); }`
together with the hardware interrupt, which can be taken whenever global
interrupts are enabled and at least one of the two SPI interrupt sources is
enabled. -/
inductive WaitStep : SpiWaitState → SpiWaitState → Prop where
  | whileTrue (s : SpiWaitState) : s.pc = .whileHead → s.spi_intr_flag = false →
      WaitStep s { s with pc := .bodyStart }
  | whileFalse (s : SpiWaitState) : s.pc = .whileHead → s.spi_intr_flag = true →
      WaitStep s { s with pc := .loopDone }
  | clearMie (s : SpiWaitState) : s.pc = .bodyStart →
      WaitStep s { s with pc := .atCheck, mie := false }
  | checkUnset (s : SpiWaitState) : s.pc = .atCheck → s.spi_intr_flag = false →
      WaitStep s { s with pc := .atWfi }
  | checkSet (s : SpiWaitState) : s.pc = .atCheck → s.spi_intr_flag = true →
      WaitStep s { s with pc := .atSet }
  | wfiWake (s : SpiWaitState) : s.pc = .atWfi →
      WaitStep s { s with pc := .atSet }
  | setMie (s : SpiWaitState) : s.pc = .atSet →
      WaitStep s { s with pc := .whileHead, mie := true }
  | irq (s : SpiWaitState) : s.mie = true → (s.evtEn = true ∨ s.rxwmEn = true) →
      WaitStep s (fic_irq_spi s)

/-- The state on entering the wait loop: flag cleared (`spi_intr_flag = 0`),
global interrupts enabled, both SPI interrupt sources enabled, no signal
delivered yet. -/
def initWaitState : SpiWaitState :=
  { pc := .whileHead, spi_intr_flag := false, mie := true, evtEn := true,
    rxwmEn := true, signals := 0 }

/-- States the wait loop can reach from its entry state. -/
inductive WaitReachable : SpiWaitState → Prop where
  | init : WaitReachable initWaitState
  | step {s s' : SpiWaitState} : WaitReachable s → WaitStep s s' → WaitReachable s'

/-- Inductive invariant of the wait loop: global interrupts are disabled
between `CSR_CLEAR_BITS` and `CSR_SET_BITS`, the flag is unset whenever the
core is about to suspend, and the handler has either not fired (both sources
still enabled) or fired exactly once (both sources disabled). -/
def WaitInv (s : SpiWaitState) : Prop :=
  ((s.pc = .atCheck ∨ s.pc = .atWfi ∨ s.pc = .atSet) → s.mie = false) ∧
  (s.pc = .atWfi → s.spi_intr_flag = false) ∧
  ((s.signals = 0 ∧ s.evtEn = true ∧ s.rxwmEn = true) ∨
   (s.signals = 1 ∧ s.evtEn = false ∧ s.rxwmEn = false))

theorem waitInv_init : WaitInv initWaitState := by
  refine ⟨?_, ?_, Or.inl ⟨rfl, rfl, rfl⟩⟩ <;> intro h <;> simp [initWaitState] at h

theorem waitInv_step {s s' : SpiWaitState} (h : WaitInv s) (hs : WaitStep s s') :
    WaitInv s' := by
  obtain ⟨h1, h2, h3⟩ := h
  cases hs with
  | whileTrue hpc hfl =>
    refine ⟨fun hc => ?_, fun hc => ?_, h3⟩
    · simp at hc
    · simp at hc
  | whileFalse hpc hfl =>
    refine ⟨fun hc => ?_, fun hc => ?_, h3⟩
    · simp at hc
    · simp at hc
  | clearMie hpc =>
    refine ⟨fun _ => rfl, fun hc => ?_, h3⟩
    simp at hc
  | checkUnset hpc hfl =>
    exact ⟨fun _ => h1 (Or.inl hpc), fun _ => hfl, h3⟩
  | checkSet hpc hfl =>
    refine ⟨fun _ => h1 (Or.inl hpc), fun hc => ?_, h3⟩
    simp at hc
  | wfiWake hpc =>
    refine ⟨fun _ => h1 (Or.inr (Or.inl hpc)), fun hc => ?_, h3⟩
    simp at hc
  | setMie hpc =>
    refine ⟨fun hc => ?_, fun hc => ?_, h3⟩
    · simp at hc
    · simp at hc
  | irq hmie hsrc =>
    refine ⟨fun hc => ?_, fun hc => ?_, ?_⟩
    · simp only [fic_irq_spi] at hc
      rw [h1 hc] at hmie
      cases hmie
    · simp only [fic_irq_spi] at hc
      rw [h1 (Or.inr (Or.inl hc))] at hmie
      cases hmie
    · rcases h3 with ⟨hs0, -, -⟩ | ⟨-, he, hr⟩
      · exact Or.inr ⟨by simp [fic_irq_spi, hs0], rfl, rfl⟩
      · rcases hsrc with hc | hc
        · rw [he] at hc; cases hc
        · rw [hr] at hc; cases hc

theorem waitInv_reachable {s : SpiWaitState} (h : WaitReachable s) : WaitInv s := by
  induction h with
  | init => exact waitInv_init
  | step _ hs ih => exact waitInv_step ih hs

/-- C4: in every reachable state of the completion-signal wait loop, the core
is about to suspend (`wait_for_interrupt`) only with the flag still unset and
global interrupts disabled — the loop never suspends while the flag is
already set; the handler fires at most once per arming (it disables both
interrupt sources before setting the flag), and `fic_irq_spi` indeed
disables the event and RX-watermark sources and sets the flag. -/
theorem c4_wait_loop_never_suspends_signaled (s : SpiWaitState) (h : WaitReachable s) :
    (s.pc = .atWfi → s.spi_intr_flag = false ∧ s.mie = false) ∧
    s.signals ≤ 1 ∧
    (fic_irq_spi s).evtEn = false ∧ (fic_irq_spi s).rxwmEn = false ∧
    (fic_irq_spi s).spi_intr_flag = true := by
  obtain ⟨h1, h2, h3⟩ := waitInv_reachable h
  refine ⟨fun hpc => ⟨h2 hpc, h1 (Or.inr (Or.inl hpc))⟩, ?_, rfl, rfl, rfl⟩
  rcases h3 with ⟨h, -, -⟩ | ⟨h, -, -⟩ <;> omega

/-- Witness for `c4_wait_loop_never_suspends_signaled` at the loop entry
state. -/
theorem c4_wait_loop_never_suspends_signaled_witness :
    (initWaitState.pc = .atWfi →
      initWaitState.spi_intr_flag = false ∧ initWaitState.mie = false) ∧
    initWaitState.signals ≤ 1 ∧
    (fic_irq_spi initWaitState).evtEn = false ∧
    (fic_irq_spi initWaitState).rxwmEn = false ∧
    (fic_irq_spi initWaitState).spi_intr_flag = true :=
  c4_wait_loop_never_suspends_signaled initWaitState WaitReachable.init

/-- The `REVERT_24b_ADDR` macro of the quadIO example, in `uint32_t`
arithmetic: `(((addr) & 0xff0000) >> 16) | ((addr) & 0xff00) |
(((addr) & 0xff) << 16)`. -/
def REVERT_24b_ADDR (addr : Nat) : Nat :=
  ((addr % 2 ^ 32 &&& 0xff0000) >>> 16) ||| (addr % 2 ^ 32 &&& 0xff00) |||
    ((addr % 2 ^ 32 &&& 0xff) <<< 16)

theorem testBit_ff (i : Nat) : Nat.testBit 0xff i = decide (i < 8) := by
  have h : (0xff : Nat) = 2 ^ 8 - 1 := by norm_num
  rw [h, Nat.testBit_two_pow_sub_one]

theorem testBit_ff00 (i : Nat) :
    Nat.testBit 0xff00 i = (decide (8 ≤ i) && decide (i < 16)) := by
  have h : (0xff00 : Nat) = (2 ^ 8 - 1) <<< 8 := by norm_num [Nat.shiftLeft_eq]
  rw [h, Nat.testBit_shiftLeft, Nat.testBit_two_pow_sub_one]
  rcases Nat.lt_or_ge i 8 with h8 | h8
  · have hn : ¬ (8 ≤ i) := by omega
    simp [hn]
  · congr 1
    exact decide_eq_decide.mpr (by omega)

theorem testBit_ff0000 (i : Nat) :
    Nat.testBit 0xff0000 i = (decide (16 ≤ i) && decide (i < 24)) := by
  have h : (0xff0000 : Nat) = (2 ^ 8 - 1) <<< 16 := by norm_num [Nat.shiftLeft_eq]
  rw [h, Nat.testBit_shiftLeft, Nat.testBit_two_pow_sub_one]
  rcases Nat.lt_or_ge i 16 with h16 | h16
  · have hn : ¬ (16 ≤ i) := by omega
    simp [hn]
  · simp only [h16]
    congr 1
    exact decide_eq_decide.mpr (by omega)

/-- The byte reversal always lands below `2^24`. -/
theorem revert_lt_two_pow (x : Nat) : REVERT_24b_ADDR x < 2 ^ 24 := by
  unfold REVERT_24b_ADDR
  refine Nat.or_lt_two_pow (Nat.or_lt_two_pow ?_ ?_) ?_
  · have h1 := Nat.and_lt_two_pow (x % 2 ^ 32) (show (0xff0000 : Nat) < 2 ^ 24 by norm_num)
    have h2 : (x % 2 ^ 32 &&& 0xff0000) >>> 16 ≤ x % 2 ^ 32 &&& 0xff0000 := by
      rw [Nat.shiftRight_eq_div_pow]
      exact Nat.div_le_self _ _
    omega
  · exact Nat.and_lt_two_pow _ (by norm_num)
  · rw [Nat.shiftLeft_eq]
    have h1 := Nat.and_lt_two_pow (x % 2 ^ 32) (show (0xff : Nat) < 2 ^ 8 by norm_num)
    omega

/-- Bit `i` of the byte reversal of a value below `2^32`. -/
theorem revert_testBit (y : Nat) (hy : y < 2 ^ 32) (i : Nat) :
    (REVERT_24b_ADDR y).testBit i =
      if i < 8 then y.testBit (16 + i)
      else if i < 16 then y.testBit i
      else if i < 24 then y.testBit (i - 16)
      else false := by
  have hy32 : y % 2 ^ 32 = y := Nat.mod_eq_of_lt hy
  unfold REVERT_24b_ADDR
  rw [hy32]
  simp only [Nat.testBit_or, Nat.testBit_and, Nat.testBit_shiftRight,
    Nat.testBit_shiftLeft, testBit_ff, testBit_ff00, testBit_ff0000]
  rcases Nat.lt_or_ge i 8 with h1 | h1
  · have e1 : 16 ≤ 16 + i := by omega
    have e2 : 16 + i < 24 := by omega
    have e3 : ¬ (8 ≤ i) := by omega
    have e4 : ¬ (16 ≤ i) := by omega
    simp [h1, e1, e2, e3, e4]
  rcases Nat.lt_or_ge i 16 with h2 | h2
  · have e1 : ¬ (16 + i < 24) := by omega
    have e2 : ¬ (i < 8) := by omega
    have e3 : ¬ (16 ≤ i) := by omega
    simp [h1, h2, e1, e2, e3]
  rcases Nat.lt_or_ge i 24 with h3 | h3
  · have e1 : ¬ (16 + i < 24) := by omega
    have e2 : ¬ (i < 8) := by omega
    have e3 : ¬ (i < 16) := by omega
    have e4 : i - 16 < 8 := by omega
    simp [h2, h3, e1, e2, e3, e4]
  · have e1 : ¬ (16 + i < 24) := by omega
    have e2 : ¬ (i < 8) := by omega
    have e3 : ¬ (i < 16) := by omega
    have e4 : ¬ (i < 24) := by omega
    have e5 : ¬ (i - 16 < 8) := by omega
    simp [h2, h3, e1, e2, e3, e4, e5]

/-- C7: the 24-bit address byte reversal is an involution: for every address
below `2^24`, applying `REVERT_24b_ADDR` twice returns the address. -/
theorem c7_revert_24b_addr_involutive (a : Nat) (h : a < 2 ^ 24) :
    REVERT_24b_ADDR (REVERT_24b_ADDR a) = a := by
  have hb : REVERT_24b_ADDR a < 2 ^ 24 := revert_lt_two_pow a
  apply Nat.eq_of_testBit_eq
  intro i
  rw [revert_testBit (REVERT_24b_ADDR a) (by omega) i]
  rcases Nat.lt_or_ge i 8 with h1 | h1
  · rw [if_pos h1, revert_testBit a (by omega) (16 + i),
      if_neg (by omega), if_neg (by omega), if_pos (by omega)]
    congr 1
    omega
  rcases Nat.lt_or_ge i 16 with h2 | h2
  · rw [if_neg (by omega), if_pos h2, revert_testBit a (by omega) i,
      if_neg (by omega), if_pos h2]
  rcases Nat.lt_or_ge i 24 with h3 | h3
  · rw [if_neg (by omega), if_neg (by omega), if_pos h3,
      revert_testBit a (by omega) (i - 16), if_pos (by omega)]
    congr 1
    omega
  · rw [if_neg (by omega), if_neg (by omega), if_neg (by omega)]
    exact (Nat.testBit_lt_two_pow
      (lt_of_lt_of_le h (Nat.pow_le_pow_right (by norm_num) h3))).symm

/-- Witness for `c7_revert_24b_addr_involutive` at the address `0x123456`. -/
theorem c7_revert_24b_addr_involutive_witness :
    REVERT_24b_ADDR (REVERT_24b_ADDR 0x123456) = 0x123456 :=
  c7_revert_24b_addr_involutive 0x123456 (by norm_num)
